import Mathlib

/-!
Shallow embedding of the glassmorphic music player's state logic.

Sources embedded:
* `src/components/MusicPlayer.js` — `handleVolumeChange`, `toggleMute`,
  the volume effect (`audio.volume = isMuted ? 0 : volume`),
  `handleProgressClick`, `handleNext`, `handlePrevious`, `handleEnded`.
* `src/components/FileUpload.js` — `handleFileSelect`.
* `src/hooks/useLocalStorage.js` (audio utilities) — `isValidMP3File`,
  `getAllSavedTracks`, `clearOldAudioData`.
* The `Home` page component (same repository) — `updateAudioData`,
  `playSong`, `pauseSong`, and the `requestAnimationFrame` sampling loop,
  modelled as an explicit state machine.

JavaScript numbers are modelled by `ℚ` (the operations used are exact),
array indices by `Int` (JS `findIndex` returns `-1` on failure and
out-of-range indexing yields `undefined`, modelled as `none`), and
`localStorage` by a list of entries with pairwise-distinct keys.
-/

/-- A playlist entry as used by `MusicPlayer.js`: an opaque numeric `id`
(produced by `Date.now()`) plus display metadata. -/
structure Track where
  id : Nat
  name : String
deriving DecidableEq

/-- Result of one navigation handler invocation: either the early
`return` (no call to `onTrackChange`) or a call with its argument, which
in JS may be `undefined` (modelled as `none`). -/
inductive NavResult where
  | noCall
  | call (arg : Option Track)
deriving DecidableEq

/-- JS `Array.prototype.findIndex` as an `Option Nat`: index of the first
element satisfying `p`, or `none`. -/
def jsFindIdxO (p : α → Bool) : List α → Option Nat
  | [] => none
  | a :: as => if p a then some 0 else (jsFindIdxO p as).map (· + 1)

/-- JS `Array.prototype.findIndex`: first matching index, `-1` if none. -/
def jsFindIdx (p : α → Bool) (l : List α) : Int :=
  match jsFindIdxO p l with
  | some i => (i : Int)
  | none => -1

/-- JS array read `l[i]`: `undefined` (`none`) when `i` is negative or
past the end. -/
def jsIndex (l : List α) (i : Int) : Option α :=
  if i < 0 then none else l[i.toNat]?

/-- The predicate `track => track.id === currentTrack?.id` from the
navigation handlers; when `currentTrack` is nullish the optional chaining
yields `undefined` and the strict comparison is always false. -/
def matchesCurrent (current : Option Track) (tr : Track) : Bool :=
  match current with
  | some c => tr.id == c.id
  | none => false

/-- `handleNext` from `MusicPlayer.js`: early return on a missing/empty
playlist, otherwise `nextIndex = (currentIndex + 1) % playlist.length`
and `onTrackChange(playlist[nextIndex])`. -/
def handleNext (playlist : List Track) (current : Option Track) : NavResult :=
  if playlist.length = 0 then NavResult.noCall
  else
    let currentIndex := jsFindIdx (matchesCurrent current) playlist
    let nextIndex := (currentIndex + 1) % (playlist.length : Int)
    NavResult.call (jsIndex playlist nextIndex)

/-- `handlePrevious` from `MusicPlayer.js`: early return on a
missing/empty playlist, otherwise
`prevIndex = currentIndex === 0 ? playlist.length - 1 : currentIndex - 1`
and `onTrackChange(playlist[prevIndex])`. -/
def handlePrevious (playlist : List Track) (current : Option Track) : NavResult :=
  if playlist.length = 0 then NavResult.noCall
  else
    let currentIndex := jsFindIdx (matchesCurrent current) playlist
    let prevIndex : Int :=
      if currentIndex = 0 then (playlist.length : Int) - 1 else currentIndex - 1
    NavResult.call (jsIndex playlist prevIndex)

/-- `handleEnded` from `MusicPlayer.js`: `setIsPlaying(false)` followed by
`handleNext()`; the pair is (new `isPlaying` value, navigation outcome). -/
def handleEnded (playlist : List Track) (current : Option Track) : Bool × NavResult :=
  (false, handleNext playlist current)

/-- The `MusicPlayer` component state relevant to volume, mute, progress
and play/pause. -/
structure PlayerState where
  isPlaying : Bool
  currentTime : ℚ
  duration : ℚ
  volume : ℚ
  isMuted : Bool
deriving DecidableEq

/-- `handleVolumeChange` from `MusicPlayer.js`:
`setVolume(newVolume); setIsMuted(newVolume === 0)` — no clamping. -/
def handleVolumeChange (v : ℚ) (s : PlayerState) : PlayerState :=
  { s with volume := v, isMuted := decide (v = 0) }

/-- `toggleMute` from `MusicPlayer.js`: `setIsMuted(!isMuted)`. -/
def toggleMute (s : PlayerState) : PlayerState :=
  { s with isMuted := !s.isMuted }

/-- The volume effect from `MusicPlayer.js`:
`audioRef.current.volume = isMuted ? 0 : volume`. -/
def effectiveVolume (s : PlayerState) : ℚ :=
  if s.isMuted then 0 else s.volume

/-- `handleProgressClick` from `MusicPlayer.js`:
`newTime = ((e.clientX - rect.left) / rect.width) * duration`, stored
unclamped via `audio.currentTime = newTime; setCurrentTime(newTime)`.
`isPlaying` is untouched. -/
def handleProgressClick (clientX rectLeft rectWidth : ℚ) (s : PlayerState) : PlayerState :=
  let clickX := clientX - rectLeft
  let newTime := (clickX / rectWidth) * s.duration
  { s with currentTime := newTime }

/-- Modelled from the spec: `clamp(v, lo, hi)` as used in the
specification's description of `setVolume` and `seek`. -/
def clampSpec (v lo hi : ℚ) : ℚ :=
  min (max v lo) hi

/-- The fields of a browser `File` object inspected by the upload
validation code. -/
structure JSFile where
  type : String
  name : String
  size : Nat
deriving DecidableEq

/-- Whether `pat` is a prefix of `l` (character lists). -/
def charPrefixOf : List Char → List Char → Bool
  | [], _ => true
  | _ :: _, [] => false
  | a :: as, b :: bs => a == b && charPrefixOf as bs

/-- Whether `pat` occurs as a contiguous sublist of `l`. -/
def charContains (pat : List Char) : List Char → Bool
  | [] => charPrefixOf pat []
  | l@(_ :: rest) => charPrefixOf pat l || charContains pat rest

/-- JS `String.prototype.includes`. -/
def strIncludes (s pat : String) : Bool :=
  charContains pat.toList s.toList

/-- JS `String.prototype.startsWith`, on the underlying characters. -/
def strStartsWith (s pat : String) : Bool :=
  charPrefixOf pat.toList s.toList

/-- JS `String.prototype.endsWith`, on the underlying characters. -/
def strEndsWith (s pat : String) : Bool :=
  charPrefixOf pat.toList.reverse s.toList.reverse

/-- JS `String.prototype.toLowerCase`, character-wise (the code only
relies on it for ASCII file extensions). -/
def strToLower (s : String) : String :=
  String.mk (s.toList.map Char.toLower)

/-- `validTypes` from `isValidMP3File` in the audio utilities. -/
def validTypes : List String :=
  ["audio/mp3", "audio/mpeg", "audio/mpeg3"]

/-- `isValidMP3File` from the audio utilities: type whitelist, lowercase
`.mp3` extension check, then the 50MB size cap. -/
def isValidMP3File (f : JSFile) : Bool :=
  if !(validTypes.contains f.type) then false
  else if !(strEndsWith (strToLower f.name) ".mp3") then false
  else if f.size > 50 * 1024 * 1024 then false
  else true

/-- `handleFileSelect` from `FileUpload.js` on a present file: the result
is (`uploadError` contents if set, whether `onFileUpload` was called). -/
def handleFileSelect (f : JSFile) : Option String × Bool :=
  if !(strIncludes f.type "audio/mpeg") && !(strEndsWith (strToLower f.name) ".mp3") then
    (some "Please select an MP3 file only", false)
  else if f.size > 50 * 1024 * 1024 then
    (some "File size must be less than 50MB", false)
  else
    (none, true)

/-- State of the `Home` page component's sampling machinery:
`animationIdCurrent` is `animationIdRef.current` (which `updateAudioData`
never writes — it assigns `animationIdRef.useRef` instead),
`pendingFrame` is the id of the not-yet-fired `requestAnimationFrame`
callback, `snapshots` counts `setAudioData` calls, and `positionSeconds`
is the audio element's current time (frozen while paused). -/
structure HomeState where
  isPlaying : Bool
  analyserReady : Bool
  animationIdCurrent : Option Nat
  animationIdUseRef : Option Nat
  pendingFrame : Option Nat
  nextFrameId : Nat
  snapshots : Nat
  positionSeconds : ℚ
deriving DecidableEq

/-- `updateAudioData` from the `Home` component: when the analyser refs
are populated it produces a frequency snapshot (`setAudioData`) and
re-arms itself, storing the frame id in `animationIdRef.useRef` — not in
`animationIdRef.current`. -/
def updateAudioData (s : HomeState) : HomeState :=
  if s.analyserReady then
    { s with
      snapshots := s.snapshots + 1,
      animationIdUseRef := some s.nextFrameId,
      pendingFrame := some s.nextFrameId,
      nextFrameId := s.nextFrameId + 1 }
  else s

/-- `initializeAudioContext` from the `Home` component: creates the
analyser and data array once. -/
def initializeAudioContext (s : HomeState) : HomeState :=
  if s.analyserReady then s else { s with analyserReady := true }

/-- `playSong` from the `Home` component (fresh-track path):
`setIsPlaying(true); initializeAudioContext(); updateAudioData()`. -/
def playSong (s : HomeState) : HomeState :=
  updateAudioData (initializeAudioContext { s with isPlaying := true })

/-- Browser `cancelAnimationFrame i`: unschedules the pending callback
if its id is `i`. -/
def cancelFrame (i : Nat) (s : HomeState) : HomeState :=
  if s.pendingFrame = some i then { s with pendingFrame := none } else s

/-- `pauseSong` from the `Home` component: `audio.pause();
setIsPlaying(false); if (animationIdRef.current)
cancelAnimationFrame(animationIdRef.current)`. -/
def pauseSong (s : HomeState) : HomeState :=
  let s1 := { s with isPlaying := false }
  match s1.animationIdCurrent with
  | some i => cancelFrame i s1
  | none => s1

/-- One display-refresh tick: if a `requestAnimationFrame` callback is
pending it fires (consuming its registration) and runs
`updateAudioData`; the audio element is paused, so the tick itself never
moves `positionSeconds`. -/
def samplingTick (s : HomeState) : HomeState :=
  match s.pendingFrame with
  | some _ => updateAudioData { s with pendingFrame := none }
  | none => s

/-- The `Home` component's initial state: nothing playing, no analyser,
no scheduled frame. -/
def initialHomeState : HomeState :=
  ⟨false, false, none, none, none, 0, 0, 0⟩

/-- One `localStorage` entry as seen by the audio utilities: its key and
the optional `timestamp` field of the stored JSON object. -/
structure StoreEntry where
  key : String
  timestamp : Option Int
deriving DecidableEq

/-- The comparator value `t.timestamp || 0` used by `getAllSavedTracks`
(missing timestamps are treated as `0`). -/
def tsVal (e : StoreEntry) : Int :=
  e.timestamp.getD 0

/-- The `key.startsWith('audio_')` filter of `getAllSavedTracks`. -/
def isAudioEntry (e : StoreEntry) : Bool :=
  strStartsWith e.key "audio_"

/-- Descending-timestamp order, the comparator
`(b.timestamp || 0) - (a.timestamp || 0)` of `getAllSavedTracks`. -/
def byTsDesc (a b : StoreEntry) : Prop :=
  tsVal b ≤ tsVal a

instance : DecidableRel byTsDesc :=
  fun a b => inferInstanceAs (Decidable (tsVal b ≤ tsVal a))

instance : IsTotal StoreEntry byTsDesc :=
  ⟨fun a b => le_total (tsVal b) (tsVal a)⟩

instance : IsTrans StoreEntry byTsDesc :=
  ⟨fun _ _ _ hab hbc => le_trans hbc hab⟩

/-- `getAllSavedTracks` from the audio utilities: collect the entries
whose key starts with `audio_` and sort by descending timestamp
(`Array.prototype.sort` is a stable sort; modelled by insertion sort). -/
def getAllSavedTracks (store : List StoreEntry) : List StoreEntry :=
  List.insertionSort byTsDesc (store.filter isAudioEntry)

/-- `clearOldAudioData` from the audio utilities: keep the five most
recent tracks, removing the rest from storage by key. -/
def clearOldAudioData (store : List StoreEntry) : List StoreEntry :=
  let tracksToRemove := (getAllSavedTracks store).drop 5
  let removedKeys := tracksToRemove.map StoreEntry.key
  store.filter (fun e => !(removedKeys.contains e.key))

/-- A sample `localStorage` contents used to instantiate the storage
theorem: seven `audio_` entries (one without a timestamp field) and one
unrelated key. -/
def sampleStore : List StoreEntry :=
  [⟨"audio_a", some 3⟩, ⟨"audio_b", some 1⟩, ⟨"audio_c", some 7⟩,
   ⟨"audio_d", some 2⟩, ⟨"audio_e", some 9⟩, ⟨"settings", some 100⟩,
   ⟨"audio_f", some 5⟩, ⟨"audio_g", none⟩]

theorem jsFindIdxO_eq_none_iff (p : α → Bool) (l : List α) :
    jsFindIdxO p l = none ↔ ∀ x ∈ l, p x = false := by
  induction l with
  | nil => simp [jsFindIdxO]
  | cons a as ih =>
    by_cases h : p a
    · simp [jsFindIdxO, h]
    · simp [jsFindIdxO, h, Option.map_eq_none', ih]

theorem jsFindIdxO_lt_length {p : α → Bool} {l : List α} {j : Nat}
    (h : jsFindIdxO p l = some j) : j < l.length := by
  induction l generalizing j with
  | nil => simp [jsFindIdxO] at h
  | cons a as ih =>
    simp only [jsFindIdxO] at h
    split at h
    · simp only [Option.some.injEq] at h
      simp only [List.length_cons]
      omega
    · simp only [Option.map_eq_some'] at h
      obtain ⟨k, hk, hkj⟩ := h
      have hkj2 : k + 1 = j := hkj
      have := ih hk
      simp only [List.length_cons]
      omega

theorem jsFindIdxO_nodup_id (l : List Track) (hnd : (l.map Track.id).Nodup) :
    ∀ (j : Nat) (hj : j < l.length),
      jsFindIdxO (fun tr => tr.id == (l.get ⟨j, hj⟩).id) l = some j := by
  induction l with
  | nil => intro j hj; simp at hj
  | cons a as ih =>
    intro j hj
    have hnd1 : (Track.id a :: as.map Track.id).Nodup := by
      rw [← List.map_cons]; exact hnd
    have hnotin : Track.id a ∉ as.map Track.id := (List.nodup_cons.mp hnd1).1
    have hndtl : (as.map Track.id).Nodup := (List.nodup_cons.mp hnd1).2
    cases j with
    | zero => simp [jsFindIdxO]
    | succ k =>
      have hk : k < as.length := by simpa using hj
      have hmem : (as.get ⟨k, hk⟩).id ∈ as.map Track.id :=
        List.mem_map_of_mem Track.id (as.get_mem k hk)
      have hne : (a.id == ((a :: as).get ⟨k + 1, hj⟩).id) = false := by
        apply beq_eq_false_iff_ne.mpr
        intro hcontra
        exact hnotin (hcontra ▸ hmem)
      simp only [jsFindIdxO, hne, if_false]
      have hih := ih hndtl k hk
      rw [show ((a :: as).get ⟨k + 1, hj⟩) = as.get ⟨k, hk⟩ from rfl]
      rw [hih]
      rfl

theorem handleNext_of_find_none (pl : List Track) (cur : Option Track)
    (hne : ¬ pl.length = 0) (hfind : jsFindIdxO (matchesCurrent cur) pl = none) :
    handleNext pl cur = NavResult.call pl[0]? := by
  unfold handleNext
  rw [if_neg hne]
  simp [jsFindIdx, hfind, jsIndex]

theorem handlePrevious_of_find_none (pl : List Track) (cur : Option Track)
    (hne : ¬ pl.length = 0) (hfind : jsFindIdxO (matchesCurrent cur) pl = none) :
    handlePrevious pl cur = NavResult.call none := by
  unfold handlePrevious
  rw [if_neg hne]
  simp [jsFindIdx, hfind, jsIndex]

theorem handleNext_of_find_some (pl : List Track) (cur : Option Track) (j : Nat)
    (hfind : jsFindIdxO (matchesCurrent cur) pl = some j) :
    handleNext pl cur = NavResult.call pl[(j + 1) % pl.length]? := by
  have hj : j < pl.length := jsFindIdxO_lt_length hfind
  unfold handleNext
  rw [if_neg (by omega)]
  simp only [jsFindIdx, hfind]
  congr 1

theorem handlePrevious_of_find_zero (pl : List Track) (cur : Option Track)
    (hfind : jsFindIdxO (matchesCurrent cur) pl = some 0) :
    handlePrevious pl cur = NavResult.call pl[pl.length - 1]? := by
  have hj : 0 < pl.length := jsFindIdxO_lt_length hfind
  unfold handlePrevious
  rw [if_neg (by omega)]
  simp only [jsFindIdx, hfind, Nat.cast_zero]
  congr 1
  rw [if_pos trivial]
  unfold jsIndex
  rw [if_neg (by omega)]
  rw [show ((pl.length : Int) - 1).toNat = pl.length - 1 by omega]

theorem handlePrevious_of_find_succ (pl : List Track) (cur : Option Track) (k : Nat)
    (hfind : jsFindIdxO (matchesCurrent cur) pl = some (k + 1)) :
    handlePrevious pl cur = NavResult.call pl[k]? := by
  have hj : k + 1 < pl.length := jsFindIdxO_lt_length hfind
  unfold handlePrevious
  rw [if_neg (by omega)]
  simp only [jsFindIdx, hfind]
  congr 1
  rw [if_neg (by omega)]
  unfold jsIndex
  rw [if_neg (by omega)]
  rw [show (((k + 1 : Nat) : Int) - 1).toNat = k by omega]

/-- C1 counterexample: the claim "setVolume(v) stores clamp(v, 0, 1) and
leaves the muted flag unchanged" is false on the code: at v = 2 the
stored volume is 2, not clamp(2,0,1) = 1 (and so is the effective
output volume with muted=false), and at v = 1/2 with muted=true the
muted flag is changed to false. -/
theorem setVolume_claim_counterexample :
    (handleVolumeChange 2 ⟨false, 0, 0, 1, false⟩).volume ≠ clampSpec 2 0 1 ∧
    effectiveVolume (handleVolumeChange 2 ⟨false, 0, 0, 1, false⟩) ≠ clampSpec 2 0 1 ∧
    (handleVolumeChange (1/2) ⟨false, 0, 0, 1, true⟩).isMuted
      ≠ (⟨false, 0, 0, 1, true⟩ : PlayerState).isMuted := by
  have hclamp : clampSpec 2 0 1 = 1 := by
    norm_num [clampSpec, max_def, min_def]
  refine ⟨?_, ?_, ?_⟩
  · rw [hclamp]
    show (2 : ℚ) ≠ 1
    norm_num
  · rw [hclamp]
    show effectiveVolume _ ≠ 1
    norm_num [handleVolumeChange, effectiveVolume]
  · show decide ((1 / 2 : ℚ) = 0) ≠ true
    norm_num

/-- C1 amended: `handleVolumeChange(v)` stores v as the volume without
clamping and sets the muted flag to the test v = 0; the effective output
volume afterwards equals v. -/
theorem handleVolumeChange_spec (v : ℚ) (s : PlayerState) :
    (handleVolumeChange v s).volume = v ∧
    (handleVolumeChange v s).isMuted = decide (v = 0) ∧
    effectiveVolume (handleVolumeChange v s) = v := by
  refine ⟨rfl, rfl, ?_⟩
  by_cases h : v = 0
  · simp [handleVolumeChange, effectiveVolume, h]
  · simp [handleVolumeChange, effectiveVolume, h]

/-- C2 counterexample: with playlist [{id 0}] and a current track of id 1
(not in the playlist), `handleNext` does not fail — it selects the track
at index 0, and `handlePrevious` calls `onTrackChange(undefined)`; no
`TrackNotFoundError` exists in the code. -/
theorem nav_missing_id_counterexample :
    handleNext [⟨0, "A"⟩] (some ⟨1, "B"⟩) = NavResult.call (some ⟨0, "A"⟩) ∧
    handlePrevious [⟨0, "A"⟩] (some ⟨1, "B"⟩) = NavResult.call none := by
  refine ⟨?_, ?_⟩ <;> decide

/-- C2 amended: for every nonempty playlist and current track whose id
does not occur in it, `findIndex` yields -1, so `handleNext` selects the
track at index (−1+1) % length = 0 and `handlePrevious` calls
`onTrackChange` with `undefined` (index −2 is out of range); neither
fails with `TrackNotFoundError`. -/
theorem nav_missing_id_spec (pl : List Track) (t : Track)
    (hne : pl ≠ []) (hmem : t.id ∉ pl.map Track.id) :
    handleNext pl (some t) = NavResult.call pl[0]? ∧
    handlePrevious pl (some t) = NavResult.call none := by
  have hlen : ¬ pl.length = 0 := by
    have h0 : 0 < pl.length := List.length_pos.mpr hne
    omega
  have hfind : jsFindIdxO (matchesCurrent (some t)) pl = none := by
    rw [jsFindIdxO_eq_none_iff]
    intro x hx
    simp only [matchesCurrent]
    apply beq_eq_false_iff_ne.mpr
    intro hcontra
    exact hmem (hcontra ▸ List.mem_map_of_mem Track.id hx)
  exact ⟨handleNext_of_find_none pl (some t) hlen hfind,
         handlePrevious_of_find_none pl (some t) hlen hfind⟩

theorem nav_missing_id_spec_witness :
    ([⟨0, "A"⟩] ≠ ([] : List Track)) ∧
    ((⟨1, "B"⟩ : Track).id ∉ [(⟨0, "A"⟩ : Track)].map Track.id) ∧
    (handleNext [⟨0, "A"⟩] (some ⟨1, "B"⟩) = NavResult.call [(⟨0, "A"⟩ : Track)][0]? ∧
     handlePrevious [⟨0, "A"⟩] (some ⟨1, "B"⟩) = NavResult.call none) :=
  ⟨by decide, by decide,
   nav_missing_id_spec [⟨0, "A"⟩] ⟨1, "B"⟩ (by decide) (by decide)⟩

/-- C3: after `pauseSong` the sampling loop does NOT stop: `playSong`
arms `requestAnimationFrame` but `updateAudioData` stores the frame id in
`animationIdRef.useRef` instead of `animationIdRef.current`, so the
`cancelAnimationFrame(animationIdRef.current)` in `pauseSong` cancels
nothing, and the next tick runs `updateAudioData`, producing a new
frequency snapshot while paused (the tick does leave `positionSeconds`
unchanged, as the audio element is paused). This evaluates the code at
the failing input play-then-pause-then-tick. -/
theorem tick_after_pause_produces_snapshot :
    (pauseSong (playSong initialHomeState)).isPlaying = false ∧
    (pauseSong (playSong initialHomeState)).animationIdCurrent = none ∧
    (pauseSong (playSong initialHomeState)).pendingFrame = some 0 ∧
    (samplingTick (pauseSong (playSong initialHomeState))).snapshots
      = (pauseSong (playSong initialHomeState)).snapshots + 1 ∧
    (samplingTick (pauseSong (playSong initialHomeState))).positionSeconds
      = (pauseSong (playSong initialHomeState)).positionSeconds := by
  refine ⟨?_, ?_, ?_, ?_, ?_⟩ <;> decide

/-- C5 counterexample: on the one-entry playlist [{id 5}] with a current
track of id 7, `handleNext` is not a no-op: it calls `onTrackChange`
with the track of id 5, changing `activeTrackId` from 7 to 5 (and no
`NoOpSingleTrack` is reported — the type does not exist in the code). -/
theorem singleton_nav_counterexample :
    handleNext [⟨5, "X"⟩] (some ⟨7, "Y"⟩) = NavResult.call (some ⟨5, "X"⟩) ∧
    (5 : Nat) ≠ 7 := by
  refine ⟨?_, ?_⟩ <;> decide

/-- C5 amended: for the empty playlist, `handleNext` and `handlePrevious`
return early without calling `onTrackChange` (no `NoOpSingleTrack`
report exists in the code; the UI instead disables the buttons for
playlists of length ≤ 1); on a one-entry playlist whose entry carries
the current track's id, both handlers reselect that same entry, leaving
`activeTrackId` unchanged. -/
theorem nav_small_playlist_spec (cur : Option Track) (a t : Track) (hid : t.id = a.id) :
    handleNext [] cur = NavResult.noCall ∧
    handlePrevious [] cur = NavResult.noCall ∧
    handleNext [a] (some t) = NavResult.call (some a) ∧
    handlePrevious [a] (some t) = NavResult.call (some a) := by
  have hfind : jsFindIdxO (matchesCurrent (some t)) [a] = some 0 := by
    simp [jsFindIdxO, matchesCurrent, hid]
  refine ⟨rfl, rfl, ?_, ?_⟩
  · rw [handleNext_of_find_some [a] (some t) 0 hfind]
    norm_num
  · rw [handlePrevious_of_find_zero [a] (some t) hfind]
    norm_num

theorem nav_small_playlist_spec_witness :
    ((⟨5, "X"⟩ : Track).id = (⟨5, "X"⟩ : Track).id) ∧
    (handleNext [] (some ⟨5, "X"⟩) = NavResult.noCall ∧
     handlePrevious [] (some ⟨5, "X"⟩) = NavResult.noCall ∧
     handleNext [⟨5, "X"⟩] (some ⟨5, "X"⟩) = NavResult.call (some ⟨5, "X"⟩) ∧
     handlePrevious [⟨5, "X"⟩] (some ⟨5, "X"⟩) = NavResult.call (some ⟨5, "X"⟩)) :=
  ⟨rfl, nav_small_playlist_spec (some ⟨5, "X"⟩) ⟨5, "X"⟩ ⟨5, "X"⟩ rfl⟩

/-- C6: the natural-end handler `handleEnded` auto-advances with the very
same `handleNext` logic as manual navigation (third conjunct, by
definition), and on playlist [A, B, C]: `handleNext` from B selects C,
and a natural end on C advances (wrapping) to A. -/
theorem natural_end_auto_advance :
    handleNext [⟨1, "A"⟩, ⟨2, "B"⟩, ⟨3, "C"⟩] (some ⟨2, "B"⟩)
      = NavResult.call (some ⟨3, "C"⟩) ∧
    handleEnded [⟨1, "A"⟩, ⟨2, "B"⟩, ⟨3, "C"⟩] (some ⟨3, "C"⟩)
      = (false, NavResult.call (some ⟨1, "A"⟩)) ∧
    ∀ (pl : List Track) (cur : Option Track),
      handleEnded pl cur = (false, handleNext pl cur) :=
  ⟨by decide, by decide, fun _ _ => rfl⟩

/-- C7 counterexample: a click with clientX = 0 on a progress bar whose
bounding rectangle starts at 10 (width 100) over a 100-second track
stores currentTime = −10, outside [0, durationSeconds]: seek does not
clamp. -/
theorem seek_unclamped_counterexample :
    (handleProgressClick 0 10 100 ⟨true, 0, 100, 1, false⟩).currentTime = -10 ∧
    ¬ (0 ≤ (handleProgressClick 0 10 100 ⟨true, 0, 100, 1, false⟩).currentTime) ∧
    (handleProgressClick 0 10 100 ⟨true, 0, 100, 1, false⟩).currentTime
      ≠ clampSpec (-10) 0 100 := by
  have hval : (handleProgressClick 0 10 100 ⟨true, 0, 100, 1, false⟩).currentTime = -10 := by
    show ((0 - 10 : ℚ) / 100) * 100 = -10
    norm_num
  refine ⟨hval, ?_, ?_⟩
  · rw [hval]
    norm_num
  · rw [hval]
    norm_num [clampSpec, max_def, min_def]

/-- C7 amended: `handleProgressClick` stores the computed target
position ((clientX − rect.left) / rect.width) · duration without
clamping, and does not change the playback status (`isPlaying` and
`duration` are untouched). -/
theorem handleProgressClick_spec (clientX rectLeft rectWidth : ℚ) (s : PlayerState) :
    (handleProgressClick clientX rectLeft rectWidth s).currentTime
      = ((clientX - rectLeft) / rectWidth) * s.duration ∧
    (handleProgressClick clientX rectLeft rectWidth s).isPlaying = s.isPlaying ∧
    (handleProgressClick clientX rectLeft rectWidth s).duration = s.duration :=
  ⟨rfl, rfl, rfl⟩

/-- C8: `toggleMute` flips only the muted flag — applying it twice
returns `muted` to its original value, the stored volume is unchanged
after one and after both calls, and the effective output volume always
equals `muted ? 0 : volume` (also after the flip). -/
theorem toggleMute_spec (s : PlayerState) :
    (toggleMute (toggleMute s)).isMuted = s.isMuted ∧
    (toggleMute s).volume = s.volume ∧
    (toggleMute (toggleMute s)).volume = s.volume ∧
    (toggleMute s).currentTime = s.currentTime ∧
    (toggleMute s).isPlaying = s.isPlaying ∧
    effectiveVolume s = (if s.isMuted then 0 else s.volume) ∧
    effectiveVolume (toggleMute s) = (if s.isMuted then s.volume else 0) := by
    refine ⟨?_, rfl, rfl, rfl, rfl, rfl, ?_⟩
    · simp [toggleMute]
    · cases h : s.isMuted <;> simp [toggleMute, effectiveVolume, h]

/-- C9: every file larger than 50·1024·1024 bytes is rejected:
`handleFileSelect` sets an upload error and never calls `onFileUpload`,
and `isValidMP3File` returns false, whatever the MIME type and name. -/
theorem oversize_file_rejected (f : JSFile) (h : f.size > 50 * 1024 * 1024) :
    (handleFileSelect f).2 = false ∧
    (handleFileSelect f).1.isSome = true ∧
    isValidMP3File f = false := by
  refine ⟨?_, ?_, ?_⟩
  · unfold handleFileSelect
    split_ifs <;> rfl
  · unfold handleFileSelect
    split_ifs <;> rfl
  · unfold isValidMP3File
    split_ifs <;> rfl

theorem oversize_file_rejected_witness :
    ((⟨"audio/mpeg", "song.mp3", 52428801⟩ : JSFile).size > 50 * 1024 * 1024) ∧
    ((handleFileSelect ⟨"audio/mpeg", "song.mp3", 52428801⟩).2 = false ∧
     (handleFileSelect ⟨"audio/mpeg", "song.mp3", 52428801⟩).1.isSome = true ∧
     isValidMP3File ⟨"audio/mpeg", "song.mp3", 52428801⟩ = false) :=
  ⟨by decide, oversize_file_rejected ⟨"audio/mpeg", "song.mp3", 52428801⟩ (by decide)⟩

/-- C4: for every playlist of length at least 2 whose track ids are
pairwise distinct (the data model's id-uniqueness invariant) and which
contains the current track's id, `handleNext` followed by
`handlePrevious` returns `activeTrackId` to its original value. -/
theorem next_prev_roundtrip (pl : List Track) (t : Track)
    (hnd : (pl.map Track.id).Nodup) (hlen : 2 ≤ pl.length)
    (hmem : t.id ∈ pl.map Track.id) :
    ∃ u w : Track, handleNext pl (some t) = NavResult.call (some u) ∧
      handlePrevious pl (some u) = NavResult.call (some w) ∧ w.id = t.id := by
  obtain ⟨x, hxmem, hxid⟩ := List.mem_map.mp hmem
  obtain ⟨⟨j, hj⟩, hget⟩ := List.mem_iff_get.mp hxmem
  have hid : (pl.get ⟨j, hj⟩).id = t.id := by rw [hget]; exact hxid
  have hidElem : (pl[j]).id = t.id := hid
  have hpred : matchesCurrent (some t) = fun tr => tr.id == (pl.get ⟨j, hj⟩).id := by
    funext tr
    simp [matchesCurrent, hidElem]
  have hfind : jsFindIdxO (matchesCurrent (some t)) pl = some j := by
    rw [hpred]
    exact jsFindIdxO_nodup_id pl hnd j hj
  have hnext := handleNext_of_find_some pl (some t) j hfind
  by_cases hcase : j + 1 < pl.length
  · have hkeq : (j + 1) % pl.length = j + 1 := Nat.mod_eq_of_lt hcase
    refine ⟨pl.get ⟨j + 1, hcase⟩, pl.get ⟨j, hj⟩, ?_, ?_, hid⟩
    · rw [hnext]
      congr 1
      rw [hkeq, List.getElem?_eq_getElem hcase]
      simp [List.get_eq_getElem]
    · have hpred2 : matchesCurrent (some (pl.get ⟨j + 1, hcase⟩))
          = fun tr => tr.id == (pl.get ⟨j + 1, hcase⟩).id := by
        funext tr
        simp [matchesCurrent]
      have hfind2 : jsFindIdxO (matchesCurrent (some (pl.get ⟨j + 1, hcase⟩))) pl
          = some (j + 1) := by
        rw [hpred2]
        exact jsFindIdxO_nodup_id pl hnd (j + 1) hcase
      rw [handlePrevious_of_find_succ pl _ j hfind2]
      congr 1
      rw [List.getElem?_eq_getElem hj]
      simp [List.get_eq_getElem]
  · have hjlen : j + 1 = pl.length := by omega
    have hkeq : (j + 1) % pl.length = 0 := by
      rw [hjlen]
      exact Nat.mod_self _
    have h0 : 0 < pl.length := by omega
    refine ⟨pl.get ⟨0, h0⟩, pl.get ⟨j, hj⟩, ?_, ?_, hid⟩
    · rw [hnext]
      congr 1
      rw [hkeq, List.getElem?_eq_getElem h0]
      simp [List.get_eq_getElem]
    · have hpred2 : matchesCurrent (some (pl.get ⟨0, h0⟩))
          = fun tr => tr.id == (pl.get ⟨0, h0⟩).id := by
        funext tr
        simp [matchesCurrent]
      have hfind2 : jsFindIdxO (matchesCurrent (some (pl.get ⟨0, h0⟩))) pl = some 0 := by
        rw [hpred2]
        exact jsFindIdxO_nodup_id pl hnd 0 h0
      rw [handlePrevious_of_find_zero pl _ hfind2]
      congr 1
      have hlm1 : pl.length - 1 = j := by omega
      rw [hlm1, List.getElem?_eq_getElem hj]
      simp [List.get_eq_getElem]

theorem next_prev_roundtrip_witness :
    (([⟨1, "A"⟩, ⟨2, "B"⟩] : List Track).map Track.id).Nodup ∧
    2 ≤ ([⟨1, "A"⟩, ⟨2, "B"⟩] : List Track).length ∧
    (⟨1, "A"⟩ : Track).id ∈ ([⟨1, "A"⟩, ⟨2, "B"⟩] : List Track).map Track.id ∧
    (∃ u w : Track,
      handleNext [⟨1, "A"⟩, ⟨2, "B"⟩] (some ⟨1, "A"⟩) = NavResult.call (some u) ∧
      handlePrevious [⟨1, "A"⟩, ⟨2, "B"⟩] (some u) = NavResult.call (some w) ∧
      w.id = (⟨1, "A"⟩ : Track).id) :=
  ⟨by decide, by decide, by decide,
   next_prev_roundtrip [⟨1, "A"⟩, ⟨2, "B"⟩] ⟨1, "A"⟩ (by decide) (by decide) (by decide)⟩

/-- C10: on any `localStorage` contents (keys pairwise distinct, as
`localStorage` guarantees) with n entries whose keys start with
`audio_`, after `clearOldAudioData` exactly min(n, 5) such entries
remain; they are (as a multiset) the first five of the
descending-by-timestamp ordering produced by `getAllSavedTracks`
(missing timestamps counting as 0 via `tsVal`), every surviving audio
entry has a timestamp at least that of every removed one, and
`getAllSavedTracks` is sorted by descending timestamp. -/
theorem clearOldAudioData_keeps_newest (store : List StoreEntry)
    (hnd : (store.map StoreEntry.key).Nodup) :
    ((clearOldAudioData store).filter isAudioEntry).Perm
      ((getAllSavedTracks store).take 5) ∧
    ((clearOldAudioData store).filter isAudioEntry).length
      = min (store.filter isAudioEntry).length 5 ∧
    (∀ a ∈ (clearOldAudioData store).filter isAudioEntry,
      ∀ b ∈ (getAllSavedTracks store).drop 5, tsVal b ≤ tsVal a) ∧
    List.Sorted byTsDesc (getAllSavedTracks store) := by
  have hperm : (getAllSavedTracks store).Perm (store.filter isAudioEntry) :=
    List.perm_insertionSort byTsDesc (store.filter isAudioEntry)
  have hsorted : List.Sorted byTsDesc (getAllSavedTracks store) :=
    List.sorted_insertionSort byTsDesc (store.filter isAudioEntry)
  have hsub : ((store.filter isAudioEntry).map StoreEntry.key).Sublist
      (store.map StoreEntry.key) :=
    List.Sublist.map StoreEntry.key (List.filter_sublist store)
  have hAkeys : ((store.filter isAudioEntry).map StoreEntry.key).Nodup :=
    List.Nodup.sublist hsub hnd
  have hSkeys : ((getAllSavedTracks store).map StoreEntry.key).Nodup :=
    ((hperm.map StoreEntry.key).nodup_iff).mpr hAkeys
  have hKR : (getAllSavedTracks store).take 5 ++ (getAllSavedTracks store).drop 5
      = getAllSavedTracks store := List.take_append_drop 5 (getAllSavedTracks store)
  have hSkeys2 : (((getAllSavedTracks store).take 5
      ++ (getAllSavedTracks store).drop 5).map StoreEntry.key).Nodup := by
    rw [hKR]
    exact hSkeys
  rw [List.map_append] at hSkeys2
  have hdisj := (List.nodup_append.mp hSkeys2).2.2
  have hKnotin : ∀ a ∈ (getAllSavedTracks store).take 5,
      a.key ∉ ((getAllSavedTracks store).drop 5).map StoreEntry.key := by
    intro a ha hmem
    exact hdisj (List.mem_map_of_mem StoreEntry.key ha) hmem
  have hclear : clearOldAudioData store = store.filter
      (fun e => !((((getAllSavedTracks store).drop 5).map StoreEntry.key).contains e.key)) :=
    rfl
  have hff : (clearOldAudioData store).filter isAudioEntry
      = (store.filter isAudioEntry).filter
        (fun e => !((((getAllSavedTracks store).drop 5).map StoreEntry.key).contains e.key)) := by
    rw [hclear, List.filter_filter, List.filter_filter]
    exact List.filter_congr (fun a _ => by rw [Bool.and_comm])
  have hRnil : ((getAllSavedTracks store).drop 5).filter
      (fun e => !((((getAllSavedTracks store).drop 5).map StoreEntry.key).contains e.key))
      = [] := by
    rw [List.filter_eq_nil_iff]
    intro b hb
    have hbk : b.key ∈ ((getAllSavedTracks store).drop 5).map StoreEntry.key :=
      List.mem_map_of_mem StoreEntry.key hb
    rw [List.map_drop] at hbk
    simp [hbk]
  have hKeep : ((getAllSavedTracks store).take 5).filter
      (fun e => !((((getAllSavedTracks store).drop 5).map StoreEntry.key).contains e.key))
      = (getAllSavedTracks store).take 5 := by
    rw [List.filter_eq_self]
    intro a ha
    have hnin := hKnotin a ha
    rw [List.map_drop] at hnin
    simp [hnin]
  have hsplit : ((getAllSavedTracks store).take 5 ++ (getAllSavedTracks store).drop 5).filter
      (fun e => !((((getAllSavedTracks store).drop 5).map StoreEntry.key).contains e.key))
      = ((getAllSavedTracks store).take 5).filter
          (fun e => !((((getAllSavedTracks store).drop 5).map StoreEntry.key).contains e.key))
        ++ ((getAllSavedTracks store).drop 5).filter
          (fun e => !((((getAllSavedTracks store).drop 5).map StoreEntry.key).contains e.key)) :=
    List.filter_append _ _
  rw [hKR] at hsplit
  have hSfilter : (getAllSavedTracks store).filter
      (fun e => !((((getAllSavedTracks store).drop 5).map StoreEntry.key).contains e.key))
      = (getAllSavedTracks store).take 5 := by
    rw [hsplit, hRnil, hKeep, List.append_nil]
  have hkept : ((clearOldAudioData store).filter isAudioEntry).Perm
      ((getAllSavedTracks store).take 5) := by
    rw [hff]
    have h1 := List.Perm.filter
      (fun e => !((((getAllSavedTracks store).drop 5).map StoreEntry.key).contains e.key))
      hperm.symm
    rw [hSfilter] at h1
    exact h1
  refine ⟨hkept, ?_, ?_, hsorted⟩
  · rw [hkept.length_eq, List.length_take, hperm.length_eq]
    omega
  · intro a ha b hb
    have haK : a ∈ (getAllSavedTracks store).take 5 := (hkept.mem_iff).mp ha
    have hpw : List.Pairwise byTsDesc ((getAllSavedTracks store).take 5
        ++ (getAllSavedTracks store).drop 5) := by
      rw [hKR]
      exact hsorted
    exact (List.pairwise_append.mp hpw).2.2 a haK b hb

theorem clearOldAudioData_keeps_newest_witness :
    ((sampleStore.map StoreEntry.key).Nodup) ∧
    (((clearOldAudioData sampleStore).filter isAudioEntry).Perm
      ((getAllSavedTracks sampleStore).take 5) ∧
    ((clearOldAudioData sampleStore).filter isAudioEntry).length
      = min (sampleStore.filter isAudioEntry).length 5 ∧
    (∀ a ∈ (clearOldAudioData sampleStore).filter isAudioEntry,
      ∀ b ∈ (getAllSavedTracks sampleStore).drop 5, tsVal b ≤ tsVal a) ∧
    List.Sorted byTsDesc (getAllSavedTracks sampleStore)) :=
  ⟨by decide, clearOldAudioData_keeps_newest sampleStore (by decide)⟩
